import Mathlib

/-!
# BGE_DataImportBatchEntryController.js

A shallow embedding of the Aura controller
`src/aura/BGE_DataImportBatchEntry/BGE_DataImportBatchEntryController.js`
and the properties of its four handlers (`doInit`, `handleRowAction`,
`handleMessage`, `onTableSave`).

The controller is effectful JavaScript.  It is embedded by explicit state
passing: a handler takes the host `A` (the `$A` global), the component and the
event, and returns the component afterwards together with the error it threw,
if any.  Every call the controller makes on a collaborator (the helper, `$A`,
the overlay library, a child element) is appended, in order, to the
component's `history`.
-/

namespace BGE

/-! ## JavaScript values -/

/-- JavaScript data values.  A number is kept as its decimal literal: the
controller never computes with numbers, it only passes them on. -/
inductive JSValue where
  | undefined : JSValue
  | null : JSValue
  | bool (b : Bool) : JSValue
  | num (literal : String) : JSValue
  | str (s : String) : JSValue
  | arr (items : List JSValue) : JSValue
  | obj (props : List (String × JSValue)) : JSValue

/-- Errors the controller can throw. -/
inductive JSError where
  | TypeError : JSError
  | SyntaxError : JSError
  deriving DecidableEq, Repr

/-- Own properties of a plain object, in insertion order. -/
abbrev Obj := List (String × JSValue)

/-- Reading `o.key` on a plain object: `undefined` when the key is absent. -/
def Obj.get : Obj → String → JSValue
  | [], _ => .undefined
  | (k, v) :: rest, key => if k = key then v else Obj.get rest key

/-- Writing `o.key = v`: an existing key keeps its place, a new one goes last. -/
def Obj.put : Obj → String → JSValue → Obj
  | [], key, v => [(key, v)]
  | (k, w) :: rest, key, v => if k = key then (k, v) :: rest else (k, w) :: Obj.put rest key v

/-- Property read `value.key` for a data key: throws `TypeError` on
`undefined` and `null`, looks the key up on an object, and gives `undefined` on
the other primitives and on arrays (the keys read by the controller,
`recordId` and `donorType`, are not built-in properties of those). -/
def JSValue.getProp : JSValue → String → Except JSError JSValue
  | .undefined, _ => .error .TypeError
  | .null, _ => .error .TypeError
  | .obj props, key => .ok (Obj.get props key)
  | _, _ => .ok .undefined

/-- Strict equality `value === 'literal'` against a string literal. -/
def JSValue.strictEqStr : JSValue → String → Bool
  | .str s, lit => s = lit
  | _, _ => false

mutual
/-- The abstract operation `ToString` on data values. -/
def JSValue.ToString : JSValue → String
  | .undefined => "undefined"
  | .null => "null"
  | .bool true => "true"
  | .bool false => "false"
  | .num literal => literal
  | .str s => s
  | .arr items => JSValue.joinItems items
  | .obj _ => "[object Object]"
/-- The text of `Array.prototype.join(',')`: `null` and `undefined` items are empty. -/
def JSValue.joinItems : List JSValue → String
  | [] => ""
  | [.undefined] => ""
  | [.null] => ""
  | [v] => JSValue.ToString v
  | .undefined :: rest => "," ++ JSValue.joinItems rest
  | .null :: rest => "," ++ JSValue.joinItems rest
  | v :: rest => JSValue.ToString v ++ "," ++ JSValue.joinItems rest
end

/-! ## `JSON.parse`

The host function `JSON.parse`, on the JSON grammar of ECMA-404: white space,
the three literals, numbers, strings with escapes, arrays and objects.  The
text is consumed as a list of characters; nesting is bounded by a fuel that the
entry point sets above what any text of that length can use. -/

namespace JSON

/-- JSON white space. -/
def isWs (c : Char) : Bool :=
  c = ' ' || c = '\t' || c = '\n' || c = '\r'

/-- Drop leading white space. -/
def skipWs : List Char → List Char
  | [] => []
  | c :: rest => if isWs c then skipWs rest else c :: rest

/-- Value of a hexadecimal digit. -/
def hexVal (c : Char) : Option Nat :=
  if '0' ≤ c ∧ c ≤ '9' then some (c.toNat - '0'.toNat)
  else if 'a' ≤ c ∧ c ≤ 'f' then some (c.toNat - 'a'.toNat + 10)
  else if 'A' ≤ c ∧ c ≤ 'F' then some (c.toNat - 'A'.toNat + 10)
  else none

/-- The code unit of the four hexadecimal digits of a `\u` escape. -/
def hex4 (a b c d : Char) : Option Nat :=
  match hexVal a, hexVal b, hexVal c, hexVal d with
  | some x, some y, some z, some w => some (((x * 16 + y) * 16 + z) * 16 + w)
  | _, _, _, _ => none

/-- The character of a one-letter escape. -/
def unescape (c : Char) : Option Char :=
  if c = '"' then some '"'
  else if c = '\\' then some '\\'
  else if c = '/' then some '/'
  else if c = 'b' then some (Char.ofNat 8)
  else if c = 'f' then some (Char.ofNat 12)
  else if c = 'n' then some '\n'
  else if c = 'r' then some '\r'
  else if c = 't' then some '\t'
  else none

/-- Characters of a list of code units: a high surrogate followed by a low one
is one character; a lone surrogate, which a `String` here cannot hold, is
U+FFFD. -/
def decodeUnits : List Nat → List Char
  | [] => []
  | [u] => [if 0xD800 ≤ u ∧ u ≤ 0xDFFF then Char.ofNat 0xFFFD else Char.ofNat u]
  | u :: v :: rest =>
    if 0xD800 ≤ u ∧ u ≤ 0xDBFF ∧ 0xDC00 ≤ v ∧ v ≤ 0xDFFF then
      Char.ofNat (0x10000 + (u - 0xD800) * 0x400 + (v - 0xDC00)) :: decodeUnits rest
    else if 0xD800 ≤ u ∧ u ≤ 0xDFFF then Char.ofNat 0xFFFD :: decodeUnits (v :: rest)
    else Char.ofNat u :: decodeUnits (v :: rest)

/-- The body of a string, after its opening quote: the code units so far
(in reverse), up to the closing quote. -/
def scanString : List Char → List Nat → Option (String × List Char)
  | [], _ => none
  | '"' :: rest, acc => some (String.mk (decodeUnits acc.reverse), rest)
  | ['\\'], _ => none
  | '\\' :: 'u' :: a :: b :: c :: d :: rest, acc =>
    match hex4 a b c d with
    | some u => scanString rest (u :: acc)
    | none => none
  | '\\' :: e :: rest, acc =>
    match unescape e with
    | some ch => scanString rest (ch.toNat :: acc)
    | none => none
  | c :: rest, acc => if c.toNat < 0x20 then none else scanString rest (c.toNat :: acc)

/-- The leading decimal digits and what follows them. -/
def takeDigits : List Char → List Char × List Char
  | [] => ([], [])
  | c :: rest =>
    if c.isDigit then ((takeDigits rest).1.cons c, (takeDigits rest).2) else ([], c :: rest)

/-- The integer part of a number: `0`, or a non-zero digit and more digits. -/
def scanInt : List Char → Option (List Char × List Char)
  | '0' :: rest => some (['0'], rest)
  | c :: rest => if c.isDigit then some (c :: (takeDigits rest).1, (takeDigits rest).2) else none
  | [] => none

/-- The optional fraction: a dot and at least one digit. -/
def scanFrac : List Char → Option (List Char × List Char)
  | '.' :: rest =>
    match takeDigits rest with
    | ([], _) => none
    | (ds, rest2) => some ('.' :: ds, rest2)
  | cs => some ([], cs)

/-- At least one digit. -/
def scanDigits1 (cs : List Char) : Option (List Char × List Char) :=
  match takeDigits cs with
  | ([], _) => none
  | (ds, rest) => some (ds, rest)

/-- The optional exponent: `e` or `E`, an optional sign, at least one digit. -/
def scanExp : List Char → Option (List Char × List Char)
  | [] => some ([], [])
  | e :: rest =>
    if e = 'e' ∨ e = 'E' then
      match rest with
      | '+' :: rest2 => (scanDigits1 rest2).map fun r => (e :: '+' :: r.1, r.2)
      | '-' :: rest2 => (scanDigits1 rest2).map fun r => (e :: '-' :: r.1, r.2)
      | _ => (scanDigits1 rest).map fun r => (e :: r.1, r.2)
    else some ([], e :: rest)

/-- A number after its optional minus sign: its literal and what follows. -/
def scanUnsigned (cs : List Char) : Option (List Char × List Char) :=
  match scanInt cs with
  | none => none
  | some (i, r1) =>
    match scanFrac r1 with
    | none => none
    | some (f, r2) =>
      match scanExp r2 with
      | none => none
      | some (e, r3) => some (i ++ f ++ e, r3)

/-- A number: its literal and what follows. -/
def scanNumber : List Char → Option (String × List Char)
  | '-' :: rest => (scanUnsigned rest).map fun r => (String.mk ('-' :: r.1), r.2)
  | cs => (scanUnsigned cs).map fun r => (String.mk r.1, r.2)

/-- A value that holds no other value: a string, a literal or a number. -/
def parseScalar : List Char → Option (JSValue × List Char)
  | '"' :: rest => (scanString rest []).map fun r => (.str r.1, r.2)
  | 't' :: 'r' :: 'u' :: 'e' :: rest => some (.bool true, rest)
  | 'f' :: 'a' :: 'l' :: 's' :: 'e' :: rest => some (.bool false, rest)
  | 'n' :: 'u' :: 'l' :: 'l' :: rest => some (.null, rest)
  | cs => (scanNumber cs).map fun r => (.num r.1, r.2)

mutual
/-- One JSON value at the head of the text (white space already dropped). -/
def parseValue : Nat → List Char → Option (JSValue × List Char)
  | 0, _ => none
  | fuel + 1, cs =>
    match cs with
    | '[' :: rest =>
      match skipWs rest with
      | ']' :: rest2 => some (.arr [], rest2)
      | rest2 => parseElements fuel rest2 []
    | '\x7b' :: rest =>
      match skipWs rest with
      | '\x7d' :: rest2 => some (.obj [], rest2)
      | rest2 => parseMembers fuel rest2 []
    | _ => parseScalar cs
/-- The elements of an array from the head of one element on, up to `]`. -/
def parseElements : Nat → List Char → List JSValue → Option (JSValue × List Char)
  | 0, _, _ => none
  | fuel + 1, cs, acc =>
    match parseValue fuel cs with
    | none => none
    | some (v, rest) =>
      match skipWs rest with
      | ',' :: rest2 => parseElements fuel (skipWs rest2) (acc ++ [v])
      | ']' :: rest2 => some (.arr (acc ++ [v]), rest2)
      | _ => none
/-- The members of an object from the head of one key on, up to the closing
brace; a repeated key keeps its first place and takes the last value. -/
def parseMembers : Nat → List Char → Obj → Option (JSValue × List Char)
  | 0, _, _ => none
  | fuel + 1, cs, acc =>
    match cs with
    | '"' :: rest =>
      match scanString rest [] with
      | none => none
      | some (key, rest2) =>
        match skipWs rest2 with
        | ':' :: rest3 =>
          match parseValue fuel (skipWs rest3) with
          | none => none
          | some (v, rest4) =>
            match skipWs rest4 with
            | ',' :: rest5 => parseMembers fuel (skipWs rest5) (Obj.put acc key v)
            | '\x7d' :: rest5 => some (.obj (Obj.put acc key v), rest5)
            | _ => none
        | _ => none
    | _ => none
end

/-- The value of a whole JSON text, `SyntaxError` when the text is not JSON.
Each step of `parseValue`, `parseElements` and `parseMembers` that spends fuel
also consumes a character within two steps, so `2 * length + 2` is enough
(`parseValue_fuel_enough`). -/
def parseText (text : String) : Except JSError JSValue :=
  match parseValue (2 * text.length + 2) (skipWs text.data) with
  | some (v, rest) => if skipWs rest = [] then .ok v else .error .SyntaxError
  | none => .error .SyntaxError

/-- The call `JSON.parse(value)`: the argument is converted with `ToString`,
then parsed. -/
def parse (value : JSValue) : Except JSError JSValue :=
  parseText value.ToString

end JSON

/-! ## The component, its collaborators and the host -/

/-- The two anonymous callbacks of the controller, named after the place they
are written: the function passed to `$A.createComponent` in `doInit`, and the
function passed to `action.setCallback` in `handleRowAction`. -/
inductive Callback where
  | doInit : Callback
  | handleRowAction : Callback
  deriving DecidableEq, Repr

/-- A server action, as obtained with `component.get('c.name')`. -/
structure Action where
  name : String
  params : Obj
  callback : Option Callback

/-- The argument of `showCustomModal`.  Its `closeCallback`, a function with an
empty body, is left out. -/
structure Modal where
  header : String
  body : JSValue
  showCloseButton : Bool
  cssClass : String

/-- A call made by the controller on a collaborator.  Helper calls leave out
their first argument, which is always the component. -/
inductive Effect where
  | helper (method : String) (args : List JSValue) : Effect
  | createComponent (type : String) (attributes : Obj) (callback : Callback) : Effect
  | showCustomModal (auraId : String) (modal : Modal) : Effect
  | enqueueAction (action : Action) : Effect
  | set (key : String) (value : JSValue) : Effect
  | setOn (auraId : String) (key : String) (value : JSValue) : Effect
  | addClass (auraId : String) (cls : String) : Effect

/-- A child element of the component: its CSS classes and its attributes. -/
structure Element where
  classes : List String
  attributes : Obj

/-- The component: its attributes (`v.recordId`, `v.sObjectName`,
`v.donorType`, ...), its children by `aura:id`, and the calls made so far. -/
structure Component where
  attributes : Obj
  children : List (String × Element)
  history : List Effect

/-- What a handler leaves behind: the component, and the error thrown if it
did not run to its end. -/
structure Outcome where
  component : Component
  thrown : Option JSError

/-- Sequencing of statements: what follows a throw is not run. -/
def Outcome.andThen (o : Outcome) (next : Component → Outcome) : Outcome :=
  match o.thrown with
  | some _ => o
  | none => next o.component

/-- Append one call to the history. -/
def Component.record (component : Component) (e : Effect) : Component :=
  { component with history := component.history ++ [e] }

/-- The call `component.get('v.name')`. -/
def Component.get (component : Component) (key : String) : JSValue :=
  Obj.get component.attributes key

/-- The call `component.set('v.name', value)`. -/
def Component.set (component : Component) (key : String) (value : JSValue) : Component :=
  { component with
    attributes := Obj.put component.attributes key value
    history := component.history ++ [.set key value] }

/-- The call `component.get('c.name')`: a fresh server action. -/
def Component.getAction (_component : Component) (name : String) : Action :=
  { name := name, params := [], callback := none }

/-- Child lookup by `aura:id`. -/
def lookupChild : List (String × Element) → String → Element
  | [], _ => { classes := [], attributes := [] }
  | (k, e) :: rest, auraId => if k = auraId then e else lookupChild rest auraId

/-- Child replacement by `aura:id`. -/
def replaceChild : List (String × Element) → String → Element → List (String × Element)
  | [], auraId, e => [(auraId, e)]
  | (k, old) :: rest, auraId, e =>
    if k = auraId then (k, e) :: rest else (k, old) :: replaceChild rest auraId e

/-- Modelled from the spec: the markup of the component is not in this file; it
declares the children the controller looks up by a literal `aura:id`
(`overlayLib`, `formSpinner`, `dataImportRowsDataTable`), so `component.find`
always yields the child.  A child never written to has no class and no
attribute. -/
def Component.find (component : Component) (auraId : String) : Element :=
  lookupChild component.children auraId

/-- The call `component.find(auraId).set(key, value)`. -/
def Component.setOn (component : Component) (auraId key : String) (value : JSValue) :
    Component :=
  { component with
    children := replaceChild component.children auraId
      { component.find auraId with
        attributes := Obj.put (component.find auraId).attributes key value }
    history := component.history ++ [.setOn auraId key value] }

/-- The call `component.find(auraId).showCustomModal(modal)`. -/
def Component.showCustomModal (component : Component) (auraId : String) (modal : Modal) :
    Component :=
  component.record (.showCustomModal auraId modal)

/-- The calls `action.setParams` and `action.setCallback`. -/
def Action.setParams (action : Action) (params : Obj) : Action :=
  { action with params := params }

/-- The call `action.setCallback(this, callback)`. -/
def Action.setCallback (action : Action) (callback : Callback) : Action :=
  { action with callback := some callback }

/-- The host global `$A`: the values `$A.get` gives (the custom labels), and
what `$A.createComponent` hands its callback before it returns, when the
creation completes at once (`none` when it completes later). -/
structure Aura where
  get : String → JSValue
  createdAtOnce : Option (JSValue × String)

/-- The call `$A.enqueueAction(action)`. -/
def Aura.enqueueAction (_A : Aura) (component : Component) (action : Action) : Component :=
  component.record (.enqueueAction action)

/-- The call `$A.util.addClass(component.find(auraId), cls)`: the class is added
unless the element has it already. -/
def Aura.addClass (_A : Aura) (component : Component) (auraId cls : String) : Component :=
  { component with
    children := replaceChild component.children auraId
      { component.find auraId with
        classes := if cls ∈ (component.find auraId).classes then (component.find auraId).classes
          else (component.find auraId).classes ++ [cls] }
    history := component.history ++ [.addClass auraId cls] }

/-! The helper is another file of the bundle.  A call on it is recorded with its
arguments; what the helper then does is not part of the controller. -/

namespace helper

def getModel (component : Component) : Component :=
  component.record (.helper "getModel" [])

def showSpinner (component : Component) : Component :=
  component.record (.helper "showSpinner" [])

def hideSpinner (component : Component) : Component :=
  component.record (.helper "hideSpinner" [])

def setDataTableRows (component : Component) (response : JSValue) : Component :=
  component.record (.helper "setDataTableRows" [response])

def setTotals (component : Component) (response : JSValue) : Component :=
  component.record (.helper "setTotals" [response])

def showToast (component : Component) (title message type : JSValue) : Component :=
  component.record (.helper "showToast" [title, message, type])

def runDryRun (component : Component) (recordIds : JSValue) : Component :=
  component.record (.helper "runDryRun" [recordIds])

def createEntryForm (component : Component) : Component :=
  component.record (.helper "createEntryForm" [])

def handleTableSave (component : Component) (values : JSValue) : Component :=
  component.record (.helper "handleTableSave" [values])

end helper

/-! ## Events -/

/-- The `rowaction` event of the data table: `event.getParam('action')` is the
action descriptor and `event.getParam('row')` the row, both objects. -/
structure RowActionEvent where
  action : Obj
  row : Obj

/-- The `ltng:sendMessage` event: `message` and `channel` are whatever the
sender set, `undefined` when it set nothing. -/
structure MessageEvent where
  message : JSValue
  channel : JSValue

/-- The `save` event of the data table. -/
structure SaveEvent where
  draftValues : JSValue

/-- The response of a server action: `getState()` and `getReturnValue()`. -/
structure Response where
  getState : String
  getReturnValue : JSValue

/-! ## The controller -/

/-- The function passed to `$A.createComponent` in `doInit` (lines 11-24). -/
def doInit.callback (component : Component) (content : JSValue) (status : String) : Outcome :=
  if status = "SUCCESS" then
    let modalBody := content
    ⟨component.showCustomModal "overlayLib"
      { header := "Configure New Batch"
        body := modalBody
        showCloseButton := false
        cssClass := "mymodal" }, none⟩
  else
    ⟨component, none⟩

/-- The call `$A.createComponent(type, attributes, callback)`: the request is
recorded, and the callback runs here when the creation completes at once. -/
def Aura.createComponent (A : Aura) (component : Component) (type : String)
    (attributes : Obj) : Outcome :=
  match A.createdAtOnce with
  | some (content, status) =>
    doInit.callback (component.record (.createComponent type attributes .doInit)) content status
  | none => ⟨component.record (.createComponent type attributes .doInit), none⟩

/-- Handler `doInit` (lines 5-27). -/
def doInit (A : Aura) (component : Component) (_event : Unit) : Outcome :=
  let _recordId := component.get "v.recordId"
  (A.createComponent component "c:BGE_TemplateDetails"
    [("sObjectName", component.get "v.sObjectName")]).andThen fun component =>
  ⟨helper.getModel component, none⟩

/-- The function passed to `action.setCallback` in `handleRowAction`
(lines 40-51). -/
def handleRowAction.callback (A : Aura) (component : Component) (response : Response) :
    Outcome :=
  let state := response.getState
  let branch : Outcome :=
    if state = "SUCCESS" then
      match JSON.parse response.getReturnValue with
      | .error e => ⟨component, some e⟩
      | .ok parsed =>
        let component := helper.setDataTableRows component parsed
        let component := helper.setTotals component parsed
        ⟨helper.showToast component (A.get "$Label.c.PageMessagesConfirm")
          (A.get "$Label.c.bgeGridGiftDeleted") (.str "success"), none⟩
    else
      ⟨helper.showToast component (A.get "$Label.c.PageMessagesError")
        response.getReturnValue (.str "error"), none⟩
  branch.andThen fun component =>
  ⟨helper.hideSpinner component, none⟩

/-- Handler `handleRowAction` (lines 32-55). -/
def handleRowAction (A : Aura) (component : Component) (event : RowActionEvent) : Outcome :=
  let component := helper.showSpinner component
  let action := event.action
  let row := event.row
  match (Obj.get action "name").strictEqStr "delete" with
  | true =>
    let action := component.getAction "c.deleteDataImportRow"
    let action := action.setParams
      [("batchId", component.get "v.recordId"), ("dataImportId", Obj.get row "Id")]
    let action := action.setCallback .handleRowAction
    ⟨A.enqueueAction component action, none⟩
  | false => ⟨component, none⟩

/-- Handler `handleMessage` (lines 60-76). -/
def handleMessage (A : Aura) (component : Component) (event : MessageEvent) : Outcome :=
  let message := event.message
  let channel := event.channel
  if channel.strictEqStr "onSuccess" then
    match message.getProp "recordId" with
    | .error e => ⟨component, some e⟩
    | .ok recordId =>
      let component := helper.runDryRun component (.arr [recordId])
      let component := helper.showToast component (A.get "$Label.c.PageMessagesConfirm")
        (A.get "$Label.c.bgeGridGiftSaved") (.str "success")
      ⟨helper.createEntryForm component, none⟩
  else if channel.strictEqStr "onCancel" then
    ⟨helper.createEntryForm component, none⟩
  else if channel.strictEqStr "setDonorType" then
    match message.getProp "donorType" with
    | .error e => ⟨component, some e⟩
    | .ok donorType => ⟨component.set "v.donorType" donorType, none⟩
  else if channel.strictEqStr "hideFormSpinner" then
    ⟨A.addClass component "formSpinner" "slds-hide", none⟩
  else
    ⟨component, none⟩

/-- Handler `onTableSave` (lines 82-87). -/
def onTableSave (_A : Aura) (component : Component) (event : SaveEvent) : Outcome :=
  let values := event.draftValues
  let component := helper.handleTableSave component values
  ⟨component.setOn "dataImportRowsDataTable" "v.draftValues" .null, none⟩

/-! ## Delivery of responses, and what a history shows -/

/-- The framework hands the response of an enqueued action to its callback. -/
def Action.deliver (A : Aura) (component : Component) (action : Action)
    (response : Response) : Outcome :=
  match action.callback with
  | some .handleRowAction => handleRowAction.callback A component response
  | _ => ⟨component, none⟩

/-- The actions enqueued in a history, in order. -/
def enqueued : List Effect → List Action
  | [] => []
  | .enqueueAction action :: rest => action :: enqueued rest
  | _ :: rest => enqueued rest

/-- The argument lists of the calls of one helper method in a history. -/
def helperCalls (method : String) : List Effect → List (List JSValue)
  | [] => []
  | .helper m args :: rest =>
    if m = method then args :: helperCalls method rest else helperCalls method rest
  | _ :: rest => helperCalls method rest

/-- The modals shown in a history, in order. -/
def modalsShown : List Effect → List Modal
  | [] => []
  | .showCustomModal _ modal :: rest => modal :: modalsShown rest
  | _ :: rest => modalsShown rest

/-- Modelled from the spec: `helper.showSpinner` and `helper.hideSpinner` (in
the helper file, not under src/) show and clear the loading indicator.  The
indicator after a history, from its state `showing` before. -/
def spinnerShowing (showing : Bool) : List Effect → Bool
  | [] => showing
  | .helper m _ :: rest =>
    if m = "showSpinner" then spinnerShowing true rest
    else if m = "hideSpinner" then spinnerShowing false rest
    else spinnerShowing showing rest
  | _ :: rest => spinnerShowing showing rest

/-- A row action followed by the response to every action it enqueued: the
handler runs to its end, then each callback runs on the response. -/
def deliverAll (A : Aura) (response : Response) : List Action → Outcome → Outcome
  | [], o => o
  | action :: rest, o =>
    deliverAll A response rest (o.andThen fun component => action.deliver A component response)

/-- The handler `handleRowAction`, then the response to what it enqueued. -/
def handleRowAction.thenResponse (A : Aura) (component : Component) (event : RowActionEvent)
    (response : Response) : Outcome :=
  deliverAll A response
    (enqueued ((handleRowAction A component event).component.history.drop
      component.history.length))
    (handleRowAction A component event)

/-- The handler `doInit`, then the outcome `later` of the creation handed to
the callback when the creation did not complete at once. -/
def doInit.thenCreated (A : Aura) (component : Component) (event : Unit)
    (later : JSValue × String) : Outcome :=
  match A.createdAtOnce with
  | some _ => doInit A component event
  | none => (doInit A component event).andThen fun component =>
      doInit.callback component later.1 later.2

/-- The outcome of the creation that the callback of `doInit` receives. -/
def creationOutcome (A : Aura) (later : JSValue × String) : JSValue × String :=
  match A.createdAtOnce with
  | some now => now
  | none => later

/-- The calls of the callback of `doInit` on an outcome of the creation: the
modal, when the status is `SUCCESS`, and nothing otherwise. -/
def modalCalls (outcome : JSValue × String) : List Effect :=
  if outcome.2 = "SUCCESS" then
    [.showCustomModal "overlayLib"
      { header := "Configure New Batch"
        body := outcome.1
        showCloseButton := false
        cssClass := "mymodal" }]
  else []

/-! ## Sample inputs -/

/-- A host whose labels are their own names, and that creates components later. -/
def sampleHost : Aura :=
  { get := fun expression => .str expression, createdAtOnce := none }

/-- A batch `a0B1` with an empty form spinner and a table holding a draft. -/
def sampleComponent : Component :=
  { attributes := [("v.recordId", .str "a0B1"), ("v.sObjectName", .str "DataImportBatch__c"),
      ("v.donorType", .str "Contact1")]
    children := [("formSpinner", { classes := [], attributes := [] }),
      ("dataImportRowsDataTable",
        { classes := [], attributes := [("v.draftValues", .arr [.obj [("Id", .str "a0A7")]])] })]
    history := [] }

/-- The row action `delete` on row `a0A7`. -/
def sampleDelete : RowActionEvent :=
  { action := [("label", .str "Delete"), ("name", .str "delete")]
    row := [("Id", .str "a0A7")] }

/-- A row action other than `delete`. -/
def sampleEdit : RowActionEvent :=
  { action := [("label", .str "Edit"), ("name", .str "edit")]
    row := [("Id", .str "a0A7")] }

/-- A `SUCCESS` whose return value is not JSON. -/
def sampleMalformed : Response :=
  { getState := "SUCCESS", getReturnValue := .str "oops" }

/-- A `SUCCESS` whose return value is JSON. -/
def sampleSuccess : Response :=
  { getState := "SUCCESS", getReturnValue := .str "[\"a0A8\", 2.50]" }

/-- A failure with the message of the server. -/
def sampleFailure : Response :=
  { getState := "ERROR", getReturnValue := .str "Row is locked" }

/-- The spinner is shown before the remote call is enqueued, the callback
calls `helper.hideSpinner` last, after handling the response, and the spinner
is not left showing. -/
def SpinnerCleared (A : Aura) (component : Component) (event : RowActionEvent)
    (response : Response) : Prop :=
  (∃ action, (handleRowAction A component event).component.history =
      component.history ++ [.helper "showSpinner" [], .enqueueAction action]) ∧
  (∃ handled, (handleRowAction.thenResponse A component event response).component.history =
      (handleRowAction A component event).component.history ++ handled ++
        [.helper "hideSpinner" []]) ∧
  (∀ showing, spinnerShowing showing
      (handleRowAction.thenResponse A component event response).component.history = false)

/-- A component whose form spinner is hidden already. -/
def sampleHidden : Component :=
  { sampleComponent with
    children := [("formSpinner", { classes := ["slds-hide"], attributes := [] })] }

/-- The message sent after a save: channel `onSuccess`, the id of the new record. -/
def sampleSaved : MessageEvent :=
  { message := .obj [("recordId", .str "a0A9")], channel := .str "onSuccess" }

/-- Channel `onSuccess` with no message set. -/
def sampleSavedBare : MessageEvent :=
  { message := .undefined, channel := .str "onSuccess" }

/-- Channel `onCancel`, with the empty text as message. -/
def sampleCancel : MessageEvent :=
  { message := .str "", channel := .str "onCancel" }

/-- Channel `setDonorType` with a donor type. -/
def sampleDonor : MessageEvent :=
  { message := .obj [("donorType", .str "Account1")], channel := .str "setDonorType" }

/-- Channel `setDonorType` with no message set. -/
def sampleDonorBare : MessageEvent :=
  { message := .undefined, channel := .str "setDonorType" }

/-- Channel `hideFormSpinner`, with the empty text as message. -/
def sampleHideSpinner : MessageEvent :=
  { message := .str "", channel := .str "hideFormSpinner" }

/-- An event with neither channel nor message set. -/
def sampleBare : MessageEvent :=
  { message := .undefined, channel := .undefined }

/-! ## General facts -/

/-! ### The fuel of `JSON.parse` is enough -/

namespace JSON

theorem skipWs_length_le (cs : List Char) : (skipWs cs).length ≤ cs.length := by
  induction cs with
  | nil => simp [skipWs]
  | cons c rest ih =>
    simp only [skipWs]
    split
    · exact Nat.le_succ_of_le ih
    · exact Nat.le_refl _


theorem scanString_length_lt (cs : List Char) (acc : List Nat) (s : String) (rest : List Char)
    (h : scanString cs acc = some (s, rest)) : rest.length < cs.length := by
  induction cs, acc using scanString.induct with
  | case1 acc => simp [scanString] at h
  | case2 rest0 acc =>
    simp [scanString] at h
    simp [h.2.symm]
  | case3 acc => simp [scanString] at h
  | case4 a b c d rest0 acc u hu ih =>
    simp [scanString, hu] at h
    have := ih h
    simp; omega
  | case5 a b c d rest0 acc hu =>
    simp [scanString, hu] at h
  | case6 e rest0 acc hne ch hch ih =>
    rw [scanString] at h
    · simp [hch] at h
      have := ih h
      simp; omega
    · exact hne
  | case7 e rest0 acc hne hch =>
    rw [scanString] at h
    · simp [hch] at h
    · exact hne
  | case8 c rest0 acc h1 h2 h3 h4 hlt =>
    rw [scanString] at h
    · simp [hlt] at h
    all_goals first | exact h1 | exact h2 | exact h3 | exact h4
  | case9 c rest0 acc h1 h2 h3 h4 hlt ih =>
    rw [scanString] at h
    · simp [hlt] at h
      have := ih h
      simp; omega
    all_goals first | exact h1 | exact h2 | exact h3 | exact h4

theorem takeDigits_length_le (cs : List Char) : (takeDigits cs).2.length ≤ cs.length := by
  induction cs with
  | nil => simp [takeDigits]
  | cons c rest ih =>
    simp only [takeDigits]
    split
    · simp; omega
    · simp


theorem takeDigits_snd (cs : List Char) (p : List Char × List Char) (h : takeDigits cs = p) :
    p.2.length ≤ cs.length := by
  rw [← h]; exact takeDigits_length_le cs

theorem scanInt_length_lt (cs i r : List Char) (h : scanInt cs = some (i, r)) :
    r.length < cs.length := by
  unfold scanInt at h
  split at h
  · simp at h
    simp [h.2.symm]
  · split at h
    · simp at h
      have := takeDigits_length_le ‹List Char›
      rw [← h.2]
      simp; omega
    · simp at h
  · simp at h

theorem scanDigits1_length_le (cs ds r : List Char) (h : scanDigits1 cs = some (ds, r)) :
    r.length ≤ cs.length := by
  unfold scanDigits1 at h
  split at h
  · simp at h
  · rename_i heq
    simp at h
    have := takeDigits_snd cs _ heq
    rw [← h.2]
    exact this

theorem scanFrac_length_le (cs f r : List Char) (h : scanFrac cs = some (f, r)) :
    r.length ≤ cs.length := by
  unfold scanFrac at h
  split at h
  · split at h
    · simp at h
    · rename_i heq
      simp at h
      have := takeDigits_snd _ _ heq
      rw [← h.2]
      simp at this ⊢; omega
  · simp at h
    rw [← h.2]

theorem scanExp_length_le (cs e r : List Char) (h : scanExp cs = some (e, r)) :
    r.length ≤ cs.length := by
  unfold scanExp at h
  split at h
  · simp at h
    simp [h.2.symm]
  · split at h
    · split at h
      all_goals
        simp only [Option.map_eq_some', Prod.mk.injEq, Prod.exists] at h
        obtain ⟨a, b, hab, -, hb⟩ := h
        have := scanDigits1_length_le _ _ _ hab
        subst hb
        simp at this ⊢
        omega
    · simp at h
      rw [← h.2]

theorem scanUnsigned_length_lt (cs lit r : List Char) (h : scanUnsigned cs = some (lit, r)) :
    r.length < cs.length := by
  unfold scanUnsigned at h
  split at h
  · simp at h
  · rename_i i r1 hi
    split at h
    · simp at h
    · rename_i f r2 hf
      split at h
      · simp at h
      · rename_i e r3 he
        simp at h
        have h1 := scanInt_length_lt _ _ _ hi
        have h2 := scanFrac_length_le _ _ _ hf
        have h3 := scanExp_length_le _ _ _ he
        rw [← h.2]
        omega

theorem scanNumber_length_lt (cs : List Char) (s : String) (rest : List Char)
    (h : scanNumber cs = some (s, rest)) : rest.length < cs.length := by
  unfold scanNumber at h
  split at h
  all_goals
    simp only [Option.map_eq_some', Prod.mk.injEq, Prod.exists] at h
    obtain ⟨a, b, hab, -, hb⟩ := h
    have := scanUnsigned_length_lt _ _ _ hab
    subst hb
    simp at this ⊢
    omega



theorem length_lt_of_skipWs_eq (cs rest : List Char) (c : Char) (h : skipWs cs = c :: rest) :
    rest.length < cs.length := by
  have := skipWs_length_le cs
  rw [h] at this
  simp at this
  omega

theorem parseScalar_length_lt (cs : List Char) (v : JSValue) (rest : List Char)
    (h : parseScalar cs = some (v, rest)) : rest.length < cs.length := by
  unfold parseScalar at h
  split at h
  · simp only [Option.map_eq_some', Prod.mk.injEq, Prod.exists] at h
    obtain ⟨a, b, hab, -, hb⟩ := h
    have := scanString_length_lt _ _ _ _ hab
    subst hb
    simp; omega
  · simp at h; rw [← h.2]; simp only [List.length_cons]; omega
  · simp at h; rw [← h.2]; simp only [List.length_cons]; omega
  · simp at h; rw [← h.2]; simp only [List.length_cons]; omega
  · simp only [Option.map_eq_some', Prod.mk.injEq, Prod.exists] at h
    obtain ⟨a, b, hab, -, hb⟩ := h
    have := scanNumber_length_lt _ _ _ hab
    subst hb
    exact this

theorem parse_length_lt (fuel : Nat) :
    (∀ cs v rest, parseValue fuel cs = some (v, rest) → rest.length < cs.length) ∧
    (∀ cs acc v rest, parseElements fuel cs acc = some (v, rest) → rest.length < cs.length) ∧
    (∀ cs acc v rest, parseMembers fuel cs acc = some (v, rest) → rest.length < cs.length) := by
  induction fuel with
  | zero =>
    refine ⟨?_, ?_, ?_⟩
    · intro cs v rest h
      rw [parseValue] at h
      exact absurd h (by simp)
    · intro cs acc v rest h
      rw [parseElements] at h
      exact absurd h (by simp)
    · intro cs acc v rest h
      rw [parseMembers] at h
      exact absurd h (by simp)
  | succ n ih =>
    obtain ⟨ihV, ihE, ihM⟩ := ih
    refine ⟨?_, ?_, ?_⟩
    · intro cs v rest h
      rw [parseValue.eq_def] at h
      simp only at h
      split at h
      · split at h
        · rename_i hws
          simp at h
          have := length_lt_of_skipWs_eq _ _ _ hws
          rw [← h.2]; simp; omega
        · exact Nat.lt_succ_of_le
            (Nat.le_trans (Nat.le_of_lt (ihE _ _ _ _ h)) (skipWs_length_le _))
      · split at h
        · rename_i hws
          simp at h
          have := length_lt_of_skipWs_eq _ _ _ hws
          rw [← h.2]; simp; omega
        · exact Nat.lt_succ_of_le
            (Nat.le_trans (Nat.le_of_lt (ihM _ _ _ _ h)) (skipWs_length_le _))
      · exact parseScalar_length_lt _ _ _ h
    · intro cs acc v rest h
      rw [parseElements.eq_def] at h
      simp only at h
      split at h
      · simp at h
      · rename_i w r1 hv
        have h1 := ihV _ _ _ hv
        split at h
        · rename_i r2 hws
          have h2 := length_lt_of_skipWs_eq _ _ _ hws
          have h3 := ihE _ _ _ _ h
          have h4 := skipWs_length_le r2
          omega
        · rename_i r2 hws
          have h2 := length_lt_of_skipWs_eq _ _ _ hws
          simp at h
          rw [← h.2]; omega
        · simp at h
    · intro cs acc v rest h
      rw [parseMembers.eq_def] at h
      simp only at h
      split at h
      · rename_i r0
        split at h
        · simp at h
        · rename_i key r2 hs
          have h1 := scanString_length_lt _ _ _ _ hs
          split at h
          · rename_i r3 hws
            have h2 := length_lt_of_skipWs_eq _ _ _ hws
            split at h
            · simp at h
            · rename_i w r4 hv
              have h3 := ihV _ _ _ hv
              have h4 := skipWs_length_le r3
              split at h
              · rename_i r5 hws5
                have h5 := length_lt_of_skipWs_eq _ _ _ hws5
                have h6 := ihM _ _ _ _ h
                have h7 := skipWs_length_le r5
                simp; omega
              · rename_i r5 hws5
                have h5 := length_lt_of_skipWs_eq _ _ _ hws5
                simp at h
                rw [← h.2]; simp; omega
              · simp at h
          · simp at h
      · simp at h

theorem parse_fuel_stable (f : Nat) : ∀ g,
    (∀ cs, 2 * cs.length + 1 ≤ f → 2 * cs.length + 1 ≤ g →
      parseValue f cs = parseValue g cs) ∧
    (∀ cs acc, 2 * cs.length + 2 ≤ f → 2 * cs.length + 2 ≤ g →
      parseElements f cs acc = parseElements g cs acc) ∧
    (∀ cs acc, 2 * cs.length + 2 ≤ f → 2 * cs.length + 2 ≤ g →
      parseMembers f cs acc = parseMembers g cs acc) := by
  induction f with
  | zero =>
    intro g
    refine ⟨?_, ?_, ?_⟩
    · intro cs hf; omega
    · intro cs acc hf; omega
    · intro cs acc hf; omega
  | succ n ih =>
    intro g
    cases g with
    | zero =>
      refine ⟨?_, ?_, ?_⟩
      · intro cs _ hg; omega
      · intro cs acc _ hg; omega
      · intro cs acc _ hg; omega
    | succ m =>
      obtain ⟨ihV, ihE, ihM⟩ := ih m
      refine ⟨?_, ?_, ?_⟩
      · intro cs hf hg
        rw [parseValue.eq_def (n + 1), parseValue.eq_def (m + 1)]
        simp only
        split
        · rename_i rest
          have hws := skipWs_length_le rest
          simp only [List.length_cons] at hf hg
          split
          · rfl
          · exact ihE _ _ (by omega) (by omega)
        · rename_i rest
          have hws := skipWs_length_le rest
          simp only [List.length_cons] at hf hg
          split
          · rfl
          · exact ihM _ _ (by omega) (by omega)
        · rfl
      · intro cs acc hf hg
        rw [parseElements.eq_def (n + 1), parseElements.eq_def (m + 1)]
        simp only
        rw [ihV cs (by omega) (by omega)]
        cases hv : parseValue m cs with
        | none => rfl
        | some p =>
          obtain ⟨v, rest⟩ := p
          have h1 := (parse_length_lt m).1 _ _ _ hv
          simp only
          split
          · rename_i r2 hws
            have h2 := length_lt_of_skipWs_eq _ _ _ hws
            have h3 := skipWs_length_le r2
            exact ihE _ _ (by omega) (by omega)
          · rfl
          · rfl
      · intro cs acc hf hg
        rw [parseMembers.eq_def (n + 1), parseMembers.eq_def (m + 1)]
        simp only
        split
        · rename_i r0
          simp only [List.length_cons] at hf hg
          cases hs : scanString r0 [] with
          | none => rfl
          | some p =>
            obtain ⟨key, r2⟩ := p
            have h1 := scanString_length_lt _ _ _ _ hs
            simp only
            split
            · rename_i r3 hws
              have h2 := length_lt_of_skipWs_eq _ _ _ hws
              have h3 := skipWs_length_le r3
              rw [ihV (skipWs r3) (by omega) (by omega)]
              cases hv : parseValue m (skipWs r3) with
              | none => rfl
              | some q =>
                obtain ⟨v, r4⟩ := q
                have h4 := (parse_length_lt m).1 _ _ _ hv
                simp only
                split
                · rename_i r5 hws5
                  have h5 := length_lt_of_skipWs_eq _ _ _ hws5
                  have h6 := skipWs_length_le r5
                  exact ihM _ _ (by omega) (by omega)
                · rfl
                · rfl
            · rfl
        · rfl

/-- More fuel than `parseText` gives changes nothing: the fuel is enough for
every text. -/
theorem parseValue_fuel_enough (text : String) (extra : Nat) :
    parseValue (2 * text.length + 2 + extra) (skipWs text.data) =
      parseValue (2 * text.length + 2) (skipWs text.data) := by
  have hws := skipWs_length_le text.data
  have hlen : text.length = text.data.length := rfl
  exact ((parse_fuel_stable _ _).1 (skipWs text.data) (by omega) (by omega))

end JSON

/-! ### Values, stores and histories -/

theorem strictEqStr_iff (v : JSValue) (lit : String) :
    v.strictEqStr lit = true ↔ v = .str lit := by
  cases v <;> simp [JSValue.strictEqStr]

theorem strictEqStr_str (lit : String) : (JSValue.str lit).strictEqStr lit = true := by
  simp [JSValue.strictEqStr]

theorem strictEqStr_ne (v : JSValue) (lit : String) (h : v ≠ .str lit) :
    v.strictEqStr lit = false := by
  cases hb : v.strictEqStr lit
  · rfl
  · exact absurd ((strictEqStr_iff v lit).1 hb) h

theorem enqueued_append (xs ys : List Effect) :
    enqueued (xs ++ ys) = enqueued xs ++ enqueued ys := by
  induction xs with
  | nil => rfl
  | cons x xs ih => cases x <;> simp [enqueued, ih]

theorem helperCalls_append (method : String) (xs ys : List Effect) :
    helperCalls method (xs ++ ys) = helperCalls method xs ++ helperCalls method ys := by
  induction xs with
  | nil => rfl
  | cons x xs ih =>
    cases x <;> simp [helperCalls, ih]
    split <;> simp

theorem modalsShown_append (xs ys : List Effect) :
    modalsShown (xs ++ ys) = modalsShown xs ++ modalsShown ys := by
  induction xs with
  | nil => rfl
  | cons x xs ih => cases x <;> simp [modalsShown, ih]

theorem spinnerShowing_append (showing : Bool) (xs ys : List Effect) :
    spinnerShowing showing (xs ++ ys) = spinnerShowing (spinnerShowing showing xs) ys := by
  induction xs generalizing showing with
  | nil => rfl
  | cons x xs ih =>
    cases x <;> simp [spinnerShowing, ih]
    split
    · rfl
    · split <;> rfl

theorem Obj.get_put_same (o : Obj) (key : String) (v : JSValue) :
    Obj.get (Obj.put o key v) key = v := by
  induction o with
  | nil => simp [Obj.put, Obj.get]
  | cons p rest ih =>
    obtain ⟨k, w⟩ := p
    by_cases hk : k = key
    · simp [Obj.put, Obj.get, hk]
    · simp [Obj.put, Obj.get, hk, ih]

theorem Obj.get_put_other (o : Obj) (key other : String) (v : JSValue) (h : other ≠ key) :
    Obj.get (Obj.put o key v) other = Obj.get o other := by
  induction o with
  | nil => simp [Obj.put, Obj.get, Ne.symm h]
  | cons p rest ih =>
    obtain ⟨k, w⟩ := p
    by_cases hk : k = key
    · subst hk
      simp [Obj.put, Obj.get, Ne.symm h]
    · by_cases ho : k = other
      · subst ho
        simp [Obj.put, Obj.get, h]
      · simp [Obj.put, Obj.get, hk, ho, ih]

theorem lookupChild_replaceChild_same (cs : List (String × Element)) (auraId : String)
    (e : Element) : lookupChild (replaceChild cs auraId e) auraId = e := by
  induction cs with
  | nil => simp [replaceChild, lookupChild]
  | cons p rest ih =>
    obtain ⟨k, old⟩ := p
    by_cases hk : k = auraId
    · simp [replaceChild, lookupChild, hk]
    · simp [replaceChild, lookupChild, hk, ih]

theorem lookupChild_replaceChild_other (cs : List (String × Element)) (auraId other : String)
    (e : Element) (h : other ≠ auraId) :
    lookupChild (replaceChild cs auraId e) other = lookupChild cs other := by
  induction cs with
  | nil => simp [replaceChild, lookupChild, Ne.symm h]
  | cons p rest ih =>
    obtain ⟨k, old⟩ := p
    by_cases hk : k = auraId
    · subst hk
      simp [replaceChild, lookupChild, Ne.symm h]
    · by_cases ho : k = other
      · subst ho
        simp [replaceChild, lookupChild, h]
      · simp [replaceChild, lookupChild, hk, ho, ih]

/-- What `handleRowAction` leaves behind on a `delete`. -/
theorem handleRowAction_delete_eq (A : Aura) (component : Component)
    (event : RowActionEvent) (hname : Obj.get event.action "name" = .str "delete") :
    handleRowAction A component event =
      ⟨{ component with
          history := component.history ++
            [.helper "showSpinner" [],
             .enqueueAction
              { name := "c.deleteDataImportRow"
                params := [("batchId", component.get "v.recordId"),
                           ("dataImportId", Obj.get event.row "Id")]
                callback := some .handleRowAction }] }, none⟩ := by
  simp [handleRowAction, hname, strictEqStr_str, helper.showSpinner, Component.record,
    Aura.enqueueAction, Component.getAction, Action.setParams, Action.setCallback,
    Component.get]

/-- What `handleRowAction` leaves behind on any other action. -/
theorem handleRowAction_other_eq (A : Aura) (component : Component)
    (event : RowActionEvent) (hname : Obj.get event.action "name" ≠ .str "delete") :
    handleRowAction A component event =
      ⟨{ component with history := component.history ++ [.helper "showSpinner" []] }, none⟩ := by
  simp [handleRowAction, strictEqStr_ne _ _ hname, helper.showSpinner, Component.record]

/-- The callback on a `SUCCESS` whose return value parses. -/
theorem callback_success_eq (A : Aura) (component : Component) (response : Response)
    (parsed : JSValue) (hstate : response.getState = "SUCCESS")
    (hparse : JSON.parse response.getReturnValue = .ok parsed) :
    handleRowAction.callback A component response =
      ⟨{ component with
          history := component.history ++
            [.helper "setDataTableRows" [parsed],
             .helper "setTotals" [parsed],
             .helper "showToast" [A.get "$Label.c.PageMessagesConfirm",
               A.get "$Label.c.bgeGridGiftDeleted", .str "success"],
             .helper "hideSpinner" []] }, none⟩ := by
  simp [handleRowAction.callback, hstate, hparse, Outcome.andThen, helper.setDataTableRows,
    helper.setTotals, helper.showToast, helper.hideSpinner, Component.record]

/-- The callback on a `SUCCESS` whose return value does not parse. -/
theorem callback_malformed_eq (A : Aura) (component : Component) (response : Response)
    (e : JSError) (hstate : response.getState = "SUCCESS")
    (hparse : JSON.parse response.getReturnValue = .error e) :
    handleRowAction.callback A component response = ⟨component, some e⟩ := by
  simp [handleRowAction.callback, hstate, hparse, Outcome.andThen]

/-- The callback on any state other than `SUCCESS`. -/
theorem callback_other_eq (A : Aura) (component : Component) (response : Response)
    (hstate : response.getState ≠ "SUCCESS") :
    handleRowAction.callback A component response =
      ⟨{ component with
          history := component.history ++
            [.helper "showToast" [A.get "$Label.c.PageMessagesError",
               response.getReturnValue, .str "error"],
             .helper "hideSpinner" []] }, none⟩ := by
  simp [handleRowAction.callback, hstate, Outcome.andThen, helper.showToast,
    helper.hideSpinner, Component.record]

/-- A `delete` followed by its response is the callback run after the handler. -/
theorem thenResponse_delete_eq (A : Aura) (component : Component)
    (event : RowActionEvent) (response : Response)
    (hname : Obj.get event.action "name" = .str "delete") :
    handleRowAction.thenResponse A component event response =
      handleRowAction.callback A (handleRowAction A component event).component response := by
  simp [handleRowAction.thenResponse, handleRowAction_delete_eq A component event hname,
    enqueued, deliverAll, Outcome.andThen, Action.deliver]

/-- A property read succeeds on every value but `undefined` and `null`. -/
theorem getProp_ok (v : JSValue) (key : String) (hu : v ≠ .undefined) (hn : v ≠ .null) :
    ∃ value, v.getProp key = .ok value := by
  cases v with
  | undefined => exact absurd rfl hu
  | null => exact absurd rfl hn
  | bool b => exact ⟨_, rfl⟩
  | num literal => exact ⟨_, rfl⟩
  | str s => exact ⟨_, rfl⟩
  | arr items => exact ⟨_, rfl⟩
  | obj props => exact ⟨_, rfl⟩

/-! ## Properties of the handlers -/

/-- C2. For a row action named `delete`, `handleRowAction` throws nothing and
makes exactly two calls: `helper.showSpinner`, then `$A.enqueueAction` of the
action `c.deleteDataImportRow` whose parameters are `batchId`, the `v.recordId`
of the component, and `dataImportId`, the `Id` of the row of the event.  So
exactly one remote action is enqueued, and no other. -/
theorem handleRowAction_delete_enqueues (A : Aura) (component : Component)
    (event : RowActionEvent) (hname : Obj.get event.action "name" = .str "delete") :
    (handleRowAction A component event).thrown = none ∧
    (handleRowAction A component event).component.history =
      component.history ++
        [.helper "showSpinner" [],
         .enqueueAction
          { name := "c.deleteDataImportRow"
            params := [("batchId", component.get "v.recordId"),
                       ("dataImportId", Obj.get event.row "Id")]
            callback := some .handleRowAction }] ∧
    enqueued (handleRowAction A component event).component.history =
      enqueued component.history ++
        [{ name := "c.deleteDataImportRow"
           params := [("batchId", component.get "v.recordId"),
                      ("dataImportId", Obj.get event.row "Id")]
           callback := some .handleRowAction }] := by
  have hhist : (handleRowAction A component event).component.history =
      component.history ++
        [.helper "showSpinner" [],
         .enqueueAction
          { name := "c.deleteDataImportRow"
            params := [("batchId", component.get "v.recordId"),
                       ("dataImportId", Obj.get event.row "Id")]
            callback := some .handleRowAction }] := by
    simp [handleRowAction, hname, strictEqStr_str, helper.showSpinner, Component.record,
      Aura.enqueueAction, Component.getAction, Action.setParams, Action.setCallback,
      Component.get]
  refine ⟨?_, hhist, ?_⟩
  · simp [handleRowAction, hname, strictEqStr_str]
  · rw [hhist, enqueued_append]
    simp [enqueued]

/-- Witness of C2 on the sample `delete` event. -/
theorem handleRowAction_delete_enqueues_witness :
    Obj.get sampleDelete.action "name" = .str "delete" ∧
    enqueued (handleRowAction sampleHost sampleComponent sampleDelete).component.history =
      [{ name := "c.deleteDataImportRow"
         params := [("batchId", .str "a0B1"), ("dataImportId", .str "a0A7")]
         callback := some .handleRowAction }] :=
  ⟨rfl, (handleRowAction_delete_enqueues sampleHost sampleComponent sampleDelete rfl).2.2⟩

/-- C1, as amended. For a row action named `delete` and a response that is
not a `SUCCESS`, or is a `SUCCESS` whose return value is valid JSON:
`helper.showSpinner` is called before the remote call is enqueued, the callback
calls `helper.hideSpinner` last, and the spinner is not left showing. -/
theorem spinner_cleared_unless_malformed (A : Aura) (component : Component)
    (event : RowActionEvent) (response : Response)
    (hname : Obj.get event.action "name" = .str "delete")
    (hresp : response.getState ≠ "SUCCESS" ∨
      ∃ parsed, JSON.parse response.getReturnValue = .ok parsed) :
    SpinnerCleared A component event response := by
  have hrun := thenResponse_delete_eq A component event response hname
  have hhandler := handleRowAction_delete_eq A component event hname
  refine ⟨⟨_, by rw [hhandler]⟩, ?_, ?_⟩
  · by_cases hstate : response.getState = "SUCCESS"
    · obtain ⟨parsed, hparse⟩ := hresp.resolve_left (fun h => h hstate)
      refine ⟨[.helper "setDataTableRows" [parsed], .helper "setTotals" [parsed],
        .helper "showToast" [A.get "$Label.c.PageMessagesConfirm",
          A.get "$Label.c.bgeGridGiftDeleted", .str "success"]], ?_⟩
      rw [hrun, callback_success_eq A _ response parsed hstate hparse]
      simp
    · refine ⟨[.helper "showToast" [A.get "$Label.c.PageMessagesError",
          response.getReturnValue, .str "error"]], ?_⟩
      rw [hrun, callback_other_eq A _ response hstate]
      simp
  · intro showing
    by_cases hstate : response.getState = "SUCCESS"
    · obtain ⟨parsed, hparse⟩ := hresp.resolve_left (fun h => h hstate)
      rw [hrun, callback_success_eq A _ response parsed hstate hparse, hhandler]
      simp [spinnerShowing_append, spinnerShowing]
    · rw [hrun, callback_other_eq A _ response hstate, hhandler]
      simp [spinnerShowing_append, spinnerShowing]

/-- Witness of C1, as amended, on the sample `delete` and a `SUCCESS` that
parses. -/
theorem spinner_cleared_unless_malformed_witness :
    Obj.get sampleDelete.action "name" = .str "delete" ∧
    (∃ parsed, JSON.parse sampleSuccess.getReturnValue = .ok parsed) ∧
    SpinnerCleared sampleHost sampleComponent sampleDelete sampleSuccess :=
  ⟨rfl, ⟨_, rfl⟩,
    spinner_cleared_unless_malformed sampleHost sampleComponent sampleDelete sampleSuccess rfl
      (Or.inr ⟨_, rfl⟩)⟩

/-- C1, as stated, fails. On the sample `delete`, when the response is a
`SUCCESS` whose return value `oops` is not JSON, `JSON.parse` throws
`SyntaxError` in the callback, `helper.hideSpinner` is never called and the
spinner is left showing. -/
theorem spinner_left_showing_on_malformed_success :
    Obj.get sampleDelete.action "name" = .str "delete" ∧
    (handleRowAction.thenResponse sampleHost sampleComponent sampleDelete
      sampleMalformed).thrown = some .SyntaxError ∧
    helperCalls "hideSpinner" (handleRowAction.thenResponse sampleHost sampleComponent
      sampleDelete sampleMalformed).component.history = [] ∧
    spinnerShowing false (handleRowAction.thenResponse sampleHost sampleComponent
      sampleDelete sampleMalformed).component.history = true ∧
    ¬ SpinnerCleared sampleHost sampleComponent sampleDelete sampleMalformed := by
  refine ⟨rfl, rfl, rfl, rfl, ?_⟩
  intro h
  have hfalse := h.2.2 false
  have htrue : spinnerShowing false (handleRowAction.thenResponse sampleHost sampleComponent
      sampleDelete sampleMalformed).component.history = true := rfl
  rw [htrue] at hfalse
  exact Bool.noConfusion hfalse

/-- C3, as amended. In the callback of the delete action: on a `SUCCESS` whose
return value is valid JSON, the calls are exactly `helper.setDataTableRows` and
`helper.setTotals` on the parsed value, one toast of type `success`, and
`helper.hideSpinner`; on any other state they are exactly one toast of type
`error` whose message is the return value as received, and
`helper.hideSpinner`, so rows and totals are not touched.  Nothing is thrown
in either case. -/
theorem callback_success_or_error (A : Aura) (component : Component) (response : Response) :
    (response.getState = "SUCCESS" →
      ∀ parsed, JSON.parse response.getReturnValue = .ok parsed →
        (handleRowAction.callback A component response).thrown = none ∧
        (handleRowAction.callback A component response).component.history =
          component.history ++
            [.helper "setDataTableRows" [parsed],
             .helper "setTotals" [parsed],
             .helper "showToast" [A.get "$Label.c.PageMessagesConfirm",
               A.get "$Label.c.bgeGridGiftDeleted", .str "success"],
             .helper "hideSpinner" []]) ∧
    (response.getState ≠ "SUCCESS" →
      (handleRowAction.callback A component response).thrown = none ∧
      (handleRowAction.callback A component response).component.history =
        component.history ++
          [.helper "showToast" [A.get "$Label.c.PageMessagesError",
             response.getReturnValue, .str "error"],
           .helper "hideSpinner" []]) := by
  constructor
  · intro hstate parsed hparse
    rw [callback_success_eq A component response parsed hstate hparse]
    exact ⟨rfl, rfl⟩
  · intro hstate
    rw [callback_other_eq A component response hstate]
    exact ⟨rfl, rfl⟩

/-- Witness of C3, as amended: the `SUCCESS` branch on a response that parses,
the other branch on a failure. -/
theorem callback_success_or_error_witness :
    (sampleSuccess.getState = "SUCCESS" ∧
      JSON.parse sampleSuccess.getReturnValue = .ok (.arr [.str "a0A8", .num "2.50"]) ∧
      (handleRowAction.callback sampleHost sampleComponent sampleSuccess).component.history =
        [.helper "setDataTableRows" [.arr [.str "a0A8", .num "2.50"]],
         .helper "setTotals" [.arr [.str "a0A8", .num "2.50"]],
         .helper "showToast" [.str "$Label.c.PageMessagesConfirm",
           .str "$Label.c.bgeGridGiftDeleted", .str "success"],
         .helper "hideSpinner" []]) ∧
    (sampleFailure.getState ≠ "SUCCESS" ∧
      (handleRowAction.callback sampleHost sampleComponent sampleFailure).component.history =
        [.helper "showToast" [.str "$Label.c.PageMessagesError", .str "Row is locked",
           .str "error"],
         .helper "hideSpinner" []]) :=
  ⟨⟨rfl, rfl,
    ((callback_success_or_error sampleHost sampleComponent sampleSuccess).1 rfl _ rfl).2⟩,
   ⟨by decide,
    ((callback_success_or_error sampleHost sampleComponent sampleFailure).2 (by decide)).2⟩⟩

/-- C3, as stated, fails. On a `SUCCESS` whose return value `oops` is not JSON
the callback throws `SyntaxError` at `JSON.parse`: rows and totals are not set
and no toast at all is shown. -/
theorem callback_malformed_success_shows_no_toast :
    sampleMalformed.getState = "SUCCESS" ∧
    (handleRowAction.callback sampleHost sampleComponent sampleMalformed).thrown =
      some .SyntaxError ∧
    helperCalls "showToast"
      (handleRowAction.callback sampleHost sampleComponent sampleMalformed).component.history
      = [] ∧
    helperCalls "setDataTableRows"
      (handleRowAction.callback sampleHost sampleComponent sampleMalformed).component.history
      = [] ∧
    helperCalls "setTotals"
      (handleRowAction.callback sampleHost sampleComponent sampleMalformed).component.history
      = [] :=
  ⟨rfl, rfl, rfl, rfl, rfl⟩

/-- C5 fails on the code. On a row action named `edit` the handler throws
nothing and enqueues nothing, but its one call is `helper.showSpinner`, which
nothing undoes: the spinner is left showing. -/
theorem spinner_left_showing_on_other_action :
    Obj.get sampleEdit.action "name" ≠ .str "delete" ∧
    (handleRowAction sampleHost sampleComponent sampleEdit).thrown = none ∧
    enqueued (handleRowAction sampleHost sampleComponent sampleEdit).component.history = [] ∧
    (handleRowAction sampleHost sampleComponent sampleEdit).component.history =
      [.helper "showSpinner" []] ∧
    spinnerShowing false
      (handleRowAction.thenResponse sampleHost sampleComponent sampleEdit
        sampleSuccess).component.history = true := by
  refine ⟨?_, rfl, rfl, rfl, rfl⟩
  intro h
  have hs : (Obj.get sampleEdit.action "name").strictEqStr "delete" = true := by
    rw [h]; exact strictEqStr_str "delete"
  exact Bool.noConfusion hs

/-- C4, as amended. For a message on channel `hideFormSpinner`, whatever the
message, `handleMessage` throws nothing and adds the CSS class `slds-hide` to
the child `formSpinner`: the class is there afterwards, no class of the child
is removed, and nothing else changes (its attributes, every other child and
the attributes of the component are as before, and the one call made is the
`addClass`). -/
theorem hideFormSpinner_adds_class (A : Aura) (component : Component) (event : MessageEvent)
    (hchannel : event.channel = .str "hideFormSpinner") :
    (handleMessage A component event).thrown = none ∧
    "slds-hide" ∈ ((handleMessage A component event).component.find "formSpinner").classes ∧
    (∀ cls, cls ∈ (component.find "formSpinner").classes →
      cls ∈ ((handleMessage A component event).component.find "formSpinner").classes) ∧
    (∀ cls, cls ∈ ((handleMessage A component event).component.find "formSpinner").classes →
      cls = "slds-hide" ∨ cls ∈ (component.find "formSpinner").classes) ∧
    ((handleMessage A component event).component.find "formSpinner").attributes =
      (component.find "formSpinner").attributes ∧
    (∀ auraId, auraId ≠ "formSpinner" →
      (handleMessage A component event).component.find auraId = component.find auraId) ∧
    (handleMessage A component event).component.attributes = component.attributes ∧
    (handleMessage A component event).component.history =
      component.history ++ [.addClass "formSpinner" "slds-hide"] := by
  have hrun : handleMessage A component event =
      ⟨A.addClass component "formSpinner" "slds-hide", none⟩ := by
    simp [handleMessage, hchannel, JSValue.strictEqStr]
  rw [hrun]
  refine ⟨rfl, ?_, ?_, ?_, ?_, ?_, rfl, rfl⟩
  · simp only [Aura.addClass, Component.find, lookupChild_replaceChild_same]
    split
    · assumption
    · simp
  · intro cls hcls
    simp only [Aura.addClass, Component.find, lookupChild_replaceChild_same]
    split
    · exact hcls
    · exact List.mem_append_left _ hcls
  · intro cls hcls
    simp only [Aura.addClass, Component.find, lookupChild_replaceChild_same] at hcls
    split at hcls
    · exact Or.inr hcls
    · rcases List.mem_append.1 hcls with h | h
      · exact Or.inr h
      · exact Or.inl (by simpa using h)
  · simp only [Aura.addClass, Component.find, lookupChild_replaceChild_same]
  · intro auraId hne
    simp only [Aura.addClass, Component.find]
    exact lookupChild_replaceChild_other _ _ _ _ hne

/-- Witness of C4, as amended, on the sample component. -/
theorem hideFormSpinner_adds_class_witness :
    sampleHideSpinner.channel = .str "hideFormSpinner" ∧
    "slds-hide" ∈ ((handleMessage sampleHost sampleComponent
      sampleHideSpinner).component.find "formSpinner").classes :=
  ⟨rfl, (hideFormSpinner_adds_class sampleHost sampleComponent sampleHideSpinner rfl).2.1⟩

/-- C4, as stated, fails. On channel `hideFormSpinner` the class `slds-hide`,
absent from `formSpinner` before, is there afterwards: a class is added.  And
where the child has the class already it keeps it: no class is removed. -/
theorem hideFormSpinner_removes_nothing :
    (sampleComponent.find "formSpinner").classes = [] ∧
    sampleHideSpinner.channel = .str "hideFormSpinner" ∧
    ((handleMessage sampleHost sampleComponent
      sampleHideSpinner).component.find "formSpinner").classes = ["slds-hide"] ∧
    (sampleHidden.find "formSpinner").classes = ["slds-hide"] ∧
    ((handleMessage sampleHost sampleHidden
      sampleHideSpinner).component.find "formSpinner").classes = ["slds-hide"] := by
  refine ⟨rfl, rfl, ?_, rfl, ?_⟩
  · simp [handleMessage, JSValue.strictEqStr, Aura.addClass, Component.find,
      lookupChild_replaceChild_same, sampleComponent, sampleHideSpinner, lookupChild]
  · simp [handleMessage, JSValue.strictEqStr, Aura.addClass, Component.find,
      lookupChild_replaceChild_same, sampleHidden, sampleHideSpinner, lookupChild]

/-- C6, as amended. On channel `onSuccess` with a message that is neither
`undefined` nor `null`, `handleMessage` throws nothing and makes exactly, in
this order, the calls `helper.runDryRun` on the one-element list
`[message.recordId]`, one toast of type `success`, and
`helper.createEntryForm`.  On channel `onCancel`, whatever the message, it
throws nothing and makes exactly the call `helper.createEntryForm`: no toast
and no dry run. -/
theorem onSuccess_onCancel_calls (A : Aura) (component : Component) (event : MessageEvent) :
    (event.channel = .str "onSuccess" →
      event.message ≠ .undefined → event.message ≠ .null →
      ∃ recordId, event.message.getProp "recordId" = .ok recordId ∧
        handleMessage A component event =
          ⟨{ component with
              history := component.history ++
                [.helper "runDryRun" [.arr [recordId]],
                 .helper "showToast" [A.get "$Label.c.PageMessagesConfirm",
                   A.get "$Label.c.bgeGridGiftSaved", .str "success"],
                 .helper "createEntryForm" []] }, none⟩) ∧
    (event.channel = .str "onCancel" →
      handleMessage A component event =
        ⟨{ component with
            history := component.history ++ [.helper "createEntryForm" []] }, none⟩) := by
  constructor
  · intro hchannel hu hn
    obtain ⟨recordId, hid⟩ := getProp_ok event.message "recordId" hu hn
    refine ⟨recordId, hid, ?_⟩
    simp [handleMessage, hchannel, hid, JSValue.strictEqStr, helper.runDryRun,
      helper.showToast, helper.createEntryForm, Component.record]
  · intro hchannel
    simp [handleMessage, hchannel, JSValue.strictEqStr, helper.createEntryForm,
      Component.record]

/-- Witness of C6, as amended, on the sample messages of the two channels. -/
theorem onSuccess_onCancel_calls_witness :
    (sampleSaved.channel = .str "onSuccess" ∧ sampleSaved.message ≠ .undefined ∧
      sampleSaved.message ≠ .null ∧
      ∃ recordId, sampleSaved.message.getProp "recordId" = .ok recordId ∧
        handleMessage sampleHost sampleComponent sampleSaved =
          ⟨{ sampleComponent with
              history := sampleComponent.history ++
                [.helper "runDryRun" [.arr [recordId]],
                 .helper "showToast" [sampleHost.get "$Label.c.PageMessagesConfirm",
                   sampleHost.get "$Label.c.bgeGridGiftSaved", .str "success"],
                 .helper "createEntryForm" []] }, none⟩) ∧
    (sampleCancel.channel = .str "onCancel" ∧
      handleMessage sampleHost sampleComponent sampleCancel =
        ⟨{ sampleComponent with
            history := sampleComponent.history ++ [.helper "createEntryForm" []] }, none⟩) :=
  ⟨⟨rfl, nofun, nofun,
    (onSuccess_onCancel_calls sampleHost sampleComponent sampleSaved).1 rfl nofun nofun⟩,
   ⟨rfl, (onSuccess_onCancel_calls sampleHost sampleComponent sampleCancel).2 rfl⟩⟩

/-- C6, as stated, fails. On channel `onSuccess` with no message set, reading
`message.recordId` throws `TypeError` before any call: no dry run, no toast
and no entry form. -/
theorem onSuccess_without_message_throws :
    sampleSavedBare.channel = .str "onSuccess" ∧
    (handleMessage sampleHost sampleComponent sampleSavedBare).thrown = some .TypeError ∧
    (handleMessage sampleHost sampleComponent sampleSavedBare).component.history = [] ∧
    helperCalls "createEntryForm"
      (handleMessage sampleHost sampleComponent sampleSavedBare).component.history = [] :=
  ⟨rfl, rfl, rfl, rfl⟩

/-- C8, as amended. On channel `setDonorType` with a message that is neither
`undefined` nor `null`, `handleMessage` throws nothing, the attribute
`v.donorType` is `message.donorType` afterwards, every other attribute and
every child is as before, and the one call made is that `component.set`: no
helper call, no toast, no remote call. -/
theorem setDonorType_sets_attribute (A : Aura) (component : Component) (event : MessageEvent)
    (hchannel : event.channel = .str "setDonorType")
    (hu : event.message ≠ .undefined) (hn : event.message ≠ .null) :
    ∃ donorType, event.message.getProp "donorType" = .ok donorType ∧
      (handleMessage A component event).thrown = none ∧
      (handleMessage A component event).component.get "v.donorType" = donorType ∧
      (∀ key, key ≠ "v.donorType" →
        (handleMessage A component event).component.get key = component.get key) ∧
      (handleMessage A component event).component.children = component.children ∧
      (handleMessage A component event).component.history =
        component.history ++ [.set "v.donorType" donorType] ∧
      (∀ method, helperCalls method (handleMessage A component event).component.history =
        helperCalls method component.history) ∧
      enqueued (handleMessage A component event).component.history =
        enqueued component.history := by
  obtain ⟨donorType, hd⟩ := getProp_ok event.message "donorType" hu hn
  have hrun : handleMessage A component event =
      ⟨component.set "v.donorType" donorType, none⟩ := by
    simp [handleMessage, hchannel, hd, JSValue.strictEqStr]
  refine ⟨donorType, hd, ?_⟩
  rw [hrun]
  refine ⟨rfl, ?_, ?_, rfl, rfl, ?_, ?_⟩
  · exact Obj.get_put_same _ _ _
  · intro key hkey
    exact Obj.get_put_other _ _ _ _ hkey
  · intro method
    simp [Component.set, helperCalls_append, helperCalls]
  · simp [Component.set, enqueued_append, enqueued]

/-- Witness of C8, as amended, on the sample `setDonorType` message. -/
theorem setDonorType_sets_attribute_witness :
    sampleDonor.channel = .str "setDonorType" ∧ sampleDonor.message ≠ .undefined ∧
    sampleDonor.message ≠ .null ∧
    ∃ donorType, sampleDonor.message.getProp "donorType" = .ok donorType ∧
      (handleMessage sampleHost sampleComponent sampleDonor).component.get "v.donorType" =
        donorType :=
  ⟨rfl, nofun, nofun,
    (setDonorType_sets_attribute sampleHost sampleComponent sampleDonor rfl nofun nofun).imp
      fun _ h => ⟨h.1, h.2.2.1⟩⟩

/-- C8, as stated, fails. On channel `setDonorType` with no message set,
reading `message.donorType` throws `TypeError` and `v.donorType` keeps the
value it had, `Contact1`. -/
theorem setDonorType_without_message_throws :
    sampleDonorBare.channel = .str "setDonorType" ∧
    (handleMessage sampleHost sampleComponent sampleDonorBare).thrown = some .TypeError ∧
    sampleComponent.get "v.donorType" = .str "Contact1" ∧
    (handleMessage sampleHost sampleComponent sampleDonorBare).component.get "v.donorType" =
      .str "Contact1" := by
  refine ⟨rfl, rfl, ?_, ?_⟩
  · simp [sampleComponent, Component.get, Obj.get]
  · simp [handleMessage, sampleDonorBare, JSValue.strictEqStr, JSValue.getProp,
      sampleComponent, Component.get, Obj.get]

/-- C9. For a message event whose channel is none of `onSuccess`, `onCancel`,
`setDonorType` and `hideFormSpinner` (a channel or a message that is not set
included), `handleMessage` throws nothing and leaves the component as it was:
no attribute, no child and no call more. -/
theorem unknown_channel_ignored (A : Aura) (component : Component) (event : MessageEvent)
    (h1 : event.channel ≠ .str "onSuccess") (h2 : event.channel ≠ .str "onCancel")
    (h3 : event.channel ≠ .str "setDonorType")
    (h4 : event.channel ≠ .str "hideFormSpinner") :
    handleMessage A component event = ⟨component, none⟩ := by
  simp [handleMessage, strictEqStr_ne _ _ h1, strictEqStr_ne _ _ h2, strictEqStr_ne _ _ h3,
    strictEqStr_ne _ _ h4]

/-- Witness of C9 on an event with neither channel nor message set. -/
theorem unknown_channel_ignored_witness :
    sampleBare.channel ≠ .str "onSuccess" ∧ sampleBare.channel ≠ .str "onCancel" ∧
    sampleBare.channel ≠ .str "setDonorType" ∧ sampleBare.channel ≠ .str "hideFormSpinner" ∧
    handleMessage sampleHost sampleComponent sampleBare = ⟨sampleComponent, none⟩ :=
  ⟨nofun, nofun, nofun, nofun,
    unknown_channel_ignored sampleHost sampleComponent sampleBare nofun nofun nofun nofun⟩

/-- C7. For every save event, `onTableSave` throws nothing and makes exactly
two calls, in this order: `helper.handleTableSave` on the `draftValues` of the
event as received, then the `set` of `v.draftValues` to `null` on the child
`dataImportRowsDataTable`, whose attribute `v.draftValues` is `null`
afterwards. -/
theorem onTableSave_saves_then_clears (A : Aura) (component : Component) (event : SaveEvent) :
    (onTableSave A component event).thrown = none ∧
    (onTableSave A component event).component.history =
      component.history ++
        [.helper "handleTableSave" [event.draftValues],
         .setOn "dataImportRowsDataTable" "v.draftValues" .null] ∧
    helperCalls "handleTableSave" (onTableSave A component event).component.history =
      helperCalls "handleTableSave" component.history ++ [[event.draftValues]] ∧
    Obj.get ((onTableSave A component event).component.find
      "dataImportRowsDataTable").attributes "v.draftValues" = .null := by
  have hhist : (onTableSave A component event).component.history =
      component.history ++
        [.helper "handleTableSave" [event.draftValues],
         .setOn "dataImportRowsDataTable" "v.draftValues" .null] := by
    simp [onTableSave, helper.handleTableSave, Component.record, Component.setOn]
  refine ⟨rfl, hhist, ?_, ?_⟩
  · rw [hhist, helperCalls_append]
    simp [helperCalls]
  · simp only [onTableSave, Component.setOn, Component.find, lookupChild_replaceChild_same]
    exact Obj.get_put_same _ _ _

/-- C10. For every outcome of the creation of the sub-view in `doInit`, whether
it completes at once or later: nothing is thrown; `helper.getModel` is called
exactly once; a modal is shown exactly when the status is `SUCCESS`, and it is
then the one modal with header `Configure New Batch`, the created content as
body and `showCloseButton` false; on any other status no modal is shown; and
no toast is shown in any case. -/
theorem doInit_modal_iff_success (A : Aura) (component : Component) (event : Unit)
    (later : JSValue × String) :
    (doInit.thenCreated A component event later).thrown = none ∧
    (doInit.thenCreated A component event later).component.history =
      component.history ++
        (.createComponent "c:BGE_TemplateDetails"
            [("sObjectName", component.get "v.sObjectName")] .doInit ::
          (match A.createdAtOnce with
            | some now => modalCalls now ++ [.helper "getModel" []]
            | none => .helper "getModel" [] :: modalCalls later)) ∧
    helperCalls "getModel" (doInit.thenCreated A component event later).component.history =
      helperCalls "getModel" component.history ++ [[]] ∧
    modalsShown (doInit.thenCreated A component event later).component.history =
      modalsShown component.history ++
        (if (creationOutcome A later).2 = "SUCCESS" then
          [{ header := "Configure New Batch"
             body := (creationOutcome A later).1
             showCloseButton := false
             cssClass := "mymodal" }]
        else []) ∧
    helperCalls "showToast" (doInit.thenCreated A component event later).component.history =
      helperCalls "showToast" component.history := by
  obtain ⟨laterContent, laterStatus⟩ := later
  cases hnow : A.createdAtOnce with
  | none =>
    by_cases hs : laterStatus = "SUCCESS"
    · simp [doInit.thenCreated, doInit, Aura.createComponent, doInit.callback, hnow, hs,
        Outcome.andThen, helper.getModel, Component.record, Component.showCustomModal,
        Component.get, modalCalls, creationOutcome, helperCalls_append, helperCalls,
        modalsShown_append, modalsShown]
    · simp [doInit.thenCreated, doInit, Aura.createComponent, doInit.callback, hnow, hs,
        Outcome.andThen, helper.getModel, Component.record, Component.showCustomModal,
        Component.get, modalCalls, creationOutcome, helperCalls_append, helperCalls,
        modalsShown_append, modalsShown]
  | some now =>
    obtain ⟨content, status⟩ := now
    by_cases hs : status = "SUCCESS"
    · simp [doInit.thenCreated, doInit, Aura.createComponent, doInit.callback, hnow, hs,
        Outcome.andThen, helper.getModel, Component.record, Component.showCustomModal,
        Component.get, modalCalls, creationOutcome, helperCalls_append, helperCalls,
        modalsShown_append, modalsShown]
    · simp [doInit.thenCreated, doInit, Aura.createComponent, doInit.callback, hnow, hs,
        Outcome.andThen, helper.getModel, Component.record, Component.showCustomModal,
        Component.get, modalCalls, creationOutcome, helperCalls_append, helperCalls,
        modalsShown_append, modalsShown]

end BGE
